import Mathlib

/-!
Verification of the AskPdf RAG system core (error taxonomy, ingestion
pipeline, retrieval chain construction, deletion endpoint) against its
natural-language specification.  The Python sources (`error_handler.py`,
`ingest.py`, `rag_chain.py`, `main.py`) are shallowly embedded: pure string
and list manipulation is translated directly; calls into external libraries
(PDF loader, text splitter, embedding model, Chroma vector store, LLM) are
modelled by explicit per-call environments recording each call's outcome;
Python exceptions are modelled by `Except` with an explicit exception value
type mirroring `AskPdfBaseException`.
-/

namespace AskPdf

/-- Error codes of `error_handler.ErrorCode`. -/
inductive ErrorCode where
  | FILE_NOT_FOUND
  | FILE_UPLOAD_ERROR
  | PDF_PROCESSING_ERROR
  | INVALID_FILE_FORMAT
  | FILE_SIZE_EXCEEDED
  | DB_CONNECTION_ERROR
  | DB_OPERATION_ERROR
  | VECTORDB_ERROR
  | DOCUMENT_NOT_FOUND
  | MODEL_INITIALIZATION_ERROR
  | EMBEDDING_ERROR
  | LLM_ERROR
  | API_KEY_ERROR
  | RATE_LIMIT_ERROR
  | QUERY_ERROR
  | CHAIN_ERROR
  | RETRIEVAL_ERROR
  | VALIDATION_ERROR
  | CONFIGURATION_ERROR
  | INTERNAL_SERVER_ERROR
  | UNKNOWN_ERROR
  deriving DecidableEq, Repr

/-- The concrete `AskPdfBaseException` subclass an exception value was
constructed with (`FileError`, `DatabaseError`, `ModelError`, `QueryError`,
`ValidationError`, `ConfigurationError`, or the base itself). -/
inductive ExcKind where
  | fileError
  | databaseError
  | modelError
  | queryError
  | validationError
  | configurationError
  | baseException
  deriving DecidableEq, Repr

/-- A value stored in an exception's `details` dictionary.  Python allows
arbitrary values; the ones the sources actually store are strings, lists of
strings, lists of `{file, error}` dictionaries (modelled as pairs), integers,
and one float (`file_size / (1024*1024)` in `validate_file_size`, modelled
exactly by its byte numerator since IEEE floats are out of scope). -/
inductive DetailVal where
  | str (s : String)
  | strs (l : List String)
  | pairs (l : List (String × String))
  | nat (n : Nat)
  | mbOfBytes (bytes : Nat)
  deriving DecidableEq, Repr

/-- A Python exception as the sources see one: either a raw (untyped)
exception carrying its message, or a typed `AskPdfBaseException` carrying
class, message, `error_code`, `details` and the optional `original_error`. -/
inductive Exc where
  | raw (msg : String)
  | domain (kind : ExcKind) (message : String) (error_code : ErrorCode)
      (details : List (String × DetailVal)) (original : Option Exc)

/-- Python `str(e)`: for an `AskPdfBaseException` this is its message
(`super().__init__(self.message)`), for a raw exception its message. -/
def Exc.pyStr : Exc → String
  | .raw m => m
  | .domain _ m _ _ _ => m

/-- The `error_code` attribute, when the exception is a typed one. -/
def Exc.code : Exc → Option ErrorCode
  | .raw _ => none
  | .domain _ _ c _ _ => some c

/-- The `details` dictionary of a typed exception (empty for a raw one). -/
def Exc.details : Exc → List (String × DetailVal)
  | .raw _ => []
  | .domain _ _ _ d _ => d

/-- The `original_error` attribute of a typed exception. -/
def Exc.original : Exc → Option Exc
  | .raw _ => none
  | .domain _ _ _ _ o => o

/-- The exception class of a typed exception. -/
def Exc.kindOf : Exc → Option ExcKind
  | .raw _ => none
  | .domain k _ _ _ _ => some k

/-- Nesting depth along the `original_error` chain; used to show that
wrapping an exception yields a different exception value. -/
def Exc.depth : Exc → Nat
  | .raw _ => 0
  | .domain _ _ _ _ none => 0
  | .domain _ _ _ _ (some e) => e.depth + 1

/-- Python `str` of a list of strings, as f-strings render it:
`['a', 'b']` (single quotes around each element). -/
def pyStrList (l : List String) : String :=
  let q := String.singleton (Char.ofNat 39)
  "[" ++ String.intercalate ", " (l.map (fun s => q ++ s ++ q)) ++ "]"

/-- Lowercasing of `str.lower()` restricted to the ASCII range the sources
deal in (file extensions). -/
def lowerChars (cs : List Char) : List Char := cs.map Char.toLower

/-- The extension part of `os.path.splitext(p)` for a path with no directory
separators (the sources always pass `os.path.basename(...)` results):
everything from the last dot on, unless every character before that dot is
itself a dot (so `.bashrc` has no extension), in which case the extension is
empty. -/
def splitextExt (s : String) : String :=
  match (s.data.reverse).span (fun c => c ≠ '.') with
  | (_, []) => ""
  | (tailRev, _ :: beforeRev) =>
    if beforeRev.any (fun c => c ≠ '.') then ⟨'.' :: tailRev.reverse⟩ else ""

/-- `file_extension = os.path.splitext(filename)[1].lower()` in
`validate_file_type`. -/
def file_extension (filename : String) : String :=
  ⟨lowerChars (splitextExt filename).data⟩

/-- The default `allowed_extensions=['.pdf']` argument of
`validate_file_type` (defaults are passed explicitly in this embedding). -/
def DEFAULT_ALLOWED : List String := [".pdf"]

/-- `error_handler.validate_file_type`: raises `ValidationError` with
`VALIDATION_ERROR` on an empty filename, raises `ValidationError` with
`INVALID_FILE_FORMAT` (details: filename and extension) when the lowercased
extension is not allowed, else returns `True`. -/
def validate_file_type (filename : String) (allowed_extensions : List String) :
    Except Exc Bool :=
  if filename = "" then
    .error (.domain .validationError "Filename cannot be empty"
      .VALIDATION_ERROR [] none)
  else
    let ext := file_extension filename
    if ext ∈ allowed_extensions then .ok true
    else
      .error (.domain .validationError
        ("File type " ++ ext ++ " not allowed. Allowed types: " ++
          pyStrList allowed_extensions)
        .INVALID_FILE_FORMAT
        [("filename", .str filename), ("extension", .str ext)] none)

/-- The `ValidationError` raised by `validate_file_size` when the size limit
is exceeded.  The Python message interpolates the float
`file_size / (1024*1024)` with `:.2f` formatting; the float display is
abstracted by the exact byte count (the claim under verification concerns
only the acceptance threshold). -/
def fileSizeErr (file_size max_size_mb : Nat) : Exc :=
  .domain .validationError
    ("File size " ++ Nat.repr file_size ++
      " bytes exceeds maximum allowed size of " ++ Nat.repr max_size_mb ++ "MB")
    .FILE_SIZE_EXCEEDED
    [("file_size_mb", .mbOfBytes file_size), ("max_size_mb", .nat max_size_mb)]
    none

/-- `error_handler.validate_file_size`: computes
`max_size_bytes = max_size_mb * 1024 * 1024` and raises exactly when
`file_size > max_size_bytes`, else returns `True`.  The Python default
`max_size_mb=50` is passed explicitly in this embedding. -/
def validate_file_size (file_size : Nat) (max_size_mb : Nat) : Except Exc Bool :=
  if file_size > max_size_mb * 1024 * 1024 then
    .error (fileSizeErr file_size max_size_mb)
  else .ok true

/-- `main.askpdf_exception_handler`: the HTTP status it answers with,
`400 if exc.error_code != ErrorCode.INTERNAL_SERVER_ERROR else 500`. -/
def askpdf_exception_handler_status (error_code : ErrorCode) : Nat :=
  if error_code ≠ ErrorCode.INTERNAL_SERVER_ERROR then 400 else 500

/-- Modelled from the spec: the client-fault error codes, "(validation,
not-found, bad format)" — used to compare the spec's recommended status
mapping with the one the code implements. -/
def specClientFaultCode : ErrorCode → Bool
  | .VALIDATION_ERROR => true
  | .FILE_NOT_FOUND => true
  | .DOCUMENT_NOT_FOUND => true
  | .INVALID_FILE_FORMAT => true
  | .FILE_SIZE_EXCEEDED => true
  | _ => false

/-- A status number in the 4xx class. -/
def is4xx (n : Nat) : Prop := 400 ≤ n ∧ n < 500

/-- `os.path.basename` for POSIX paths: the part after the last `/`. -/
def basename (p : String) : String :=
  ⟨(p.data.reverse.takeWhile (fun c => c ≠ '/')).reverse⟩

/-- The `doc_id` stamped on a chunk: `f"{filename}_chunk_{i}"`
(`Nat.repr` is exactly Python's decimal rendering of a non-negative int). -/
def mkDocId (filename : String) (i : Nat) : String :=
  filename ++ "_chunk_" ++ Nat.repr i

/-- A chunk as stamped by the ingestion loop: the metadata written at
`ingest.py` lines 134-138 plus the chunk text. -/
structure ChunkMeta where
  doc_id : String
  source_file : String
  chunk_index : Nat
  text : String
  deriving DecidableEq, Repr

/-- Outcomes of the external library calls made for one file inside the
ingestion loop: what `PyPDFLoader(...).load()` returns or raises, what
`RecursiveCharacterTextSplitter(...).split_documents(docs)` returns or
raises for this file's documents, and whether `vectordb.add_documents`
succeeds (`none`) or raises (`some message`). -/
structure FileEnv where
  load : Except String (List String)
  split : Except String (List String)
  add_documents : Option String
  deriving Repr

/-- The body of the per-file loop of `ingest_pdfs` (lines 89-160): returns
either a `failed_files` entry `(filename, error message)` or the filename
with the stamped chunks that were added to the store.  Every failure branch
`continue`s, so each file yields exactly one of the two.  (The enclosing
`except Exception` at line 155 is unreachable here: every fallible call is
already wrapped by an inner handler.) -/
def processFile (file_path : String) (fe : FileEnv) :
    Sum (String × String) (String × List ChunkMeta) :=
  let filename := basename file_path
  match fe.load with
  | .error e => .inl (filename, "PDF loading failed: " ++ e)
  | .ok docs =>
    if docs.isEmpty then .inl (filename, "PDF appears to be empty or corrupted")
    else
      match fe.split with
      | .error e => .inl (filename, "Document splitting failed: " ++ e)
      | .ok chunkTexts =>
        if chunkTexts.isEmpty then
          .inl (filename, "No text chunks could be created from PDF")
        else
          let chunks := chunkTexts.enum.map
            (fun p => ⟨mkDocId filename p.1, filename, p.1, p.2⟩)
          match fe.add_documents with
          | some e => .inl (filename, "Failed to add to vector database: " ++ e)
          | none => .inr (filename, chunks)

/-- Accumulated state of the ingestion loop: `total_chunks`,
`processed_files` (filename, chunk count), `failed_files`
(filename, error message), and the chunks actually added to the vector
store, each in input order. -/
structure LoopOut where
  total_chunks : Nat
  processed_files : List (String × Nat)
  failed_files : List (String × String)
  stored : List ChunkMeta

/-- The ingestion loop over the (path, per-file outcome) pairs. -/
def ingestLoop : List (String × FileEnv) → LoopOut
  | [] => ⟨0, [], [], []⟩
  | x :: rest =>
    let r := ingestLoop rest
    match processFile x.1 x.2 with
    | .inl f =>
      ⟨r.total_chunks, r.processed_files, f :: r.failed_files, r.stored⟩
    | .inr s =>
      ⟨s.2.length + r.total_chunks, (s.1, s.2.length) :: r.processed_files,
        r.failed_files, s.2 ++ r.stored⟩

/-- The result dictionary `ingest_pdfs` returns on success (lines 180-193):
counts always, plus the `failures` and `successes` lists only when
non-empty. -/
structure IngestResult where
  total_chunks : Nat
  processed_files : Nat
  failed_files : Nat
  failures : Option (List (String × String))
  successes : Option (List (String × Nat))
  deriving DecidableEq, Repr

/-- Outcomes of every external call one `ingest_pdfs` invocation makes:
`os.path.exists`, the embeddings-model constructor, the Chroma constructor,
the per-file library calls (in input order), and `vectordb.persist()`. -/
structure IngestEnv where
  fsExists : String → Bool
  embedInit : Option String
  dbInit : Option String
  files : List FileEnv
  persistResult : Option String

/-- `config.PERSIST_DIR` default. -/
def PERSIST_DIR : String := "chroma_db"

/-- The `FileError` of `ingest_pdfs` for an empty input list. -/
def emptyBatchErr : Exc :=
  .domain .fileError "No file paths provided for ingestion"
    .VALIDATION_ERROR [] none

/-- The `FileError` of `ingest_pdfs` for a missing file. -/
def fileNotFoundErr (p : String) : Exc :=
  .domain .fileError ("File not found: " ++ p) .FILE_NOT_FOUND
    [("file_path", .str p)] none

/-- The `FileError` the `except Exception` at `ingest.py` lines 51-57 raises
around `validate_file_type`: it catches even the typed error the validator
raised and wraps it in a fresh `FileError` whose details hold only the file
path, with the caught error attached as `original_error`. -/
def fileTypeWrapErr (p : String) (e : Exc) : Exc :=
  .domain .fileError ("Invalid file type for " ++ p ++ ": " ++ e.pyStr)
    .INVALID_FILE_FORMAT [("file_path", .str p)] (some e)

/-- The `ModelError` for an embeddings-model initialization failure. -/
def embedInitErr (m : String) : Exc :=
  .domain .modelError ("Failed to initialize embeddings model: " ++ m)
    .EMBEDDING_ERROR [] (some (.raw m))

/-- The `DatabaseError` for a Chroma initialization failure in `ingest_pdfs`. -/
def dbInitErr (m : String) : Exc :=
  .domain .databaseError ("Failed to initialize vector database: " ++ m)
    .VECTORDB_ERROR [("persist_dir", .str PERSIST_DIR)] (some (.raw m))

/-- The `DatabaseError` for a `vectordb.persist()` failure. -/
def persistErr (m : String) : Exc :=
  .domain .databaseError ("Failed to persist vector database: " ++ m)
    .DB_OPERATION_ERROR [] (some (.raw m))

/-- The `FileError` raised when `total_chunks == 0` after the loop, carrying
the per-file failures. -/
def noDocsErr (failed : List (String × String)) : Exc :=
  .domain .fileError "No documents could be processed successfully"
    .PDF_PROCESSING_ERROR [("failed_files", .pairs failed)] none

/-- The initial validation pass of `ingest_pdfs` (lines 40-57): for each
path in order, check existence, then run `validate_file_type` on the
basename, wrapping any exception it raises via `fileTypeWrapErr`. -/
def validatePaths (fs : String → Bool) : List String → Except Exc Unit
  | [] => .ok ()
  | p :: rest =>
    if fs p then
      match validate_file_type (basename p) DEFAULT_ALLOWED with
      | .error e => .error (fileTypeWrapErr p e)
      | .ok _ => validatePaths fs rest
    else .error (fileNotFoundErr p)

/-- The outer `except AskPdfBaseException: raise / except Exception`
of `ingest_pdfs` (lines 195-204): a typed error passes unchanged; a raw one
is wrapped as a `PDF_PROCESSING_ERROR` `FileError`. -/
def outerCatch : Exc → Exc
  | .raw m =>
    .domain .fileError ("Unexpected error during PDF ingestion: " ++ m)
      .PDF_PROCESSING_ERROR [] (some (.raw m))
  | e => e

/-- `ingest_pdfs` up to (but not including) the outer catch, paired with the
list of chunks added to the vector store during the call (the store
mutation). -/
def ingestRun (file_paths : List String) (env : IngestEnv) :
    Except Exc IngestResult × List ChunkMeta :=
  if file_paths.isEmpty then (.error emptyBatchErr, [])
  else
    match validatePaths env.fsExists file_paths with
    | .error e => (.error e, [])
    | .ok _ =>
      match env.embedInit with
      | some m => (.error (embedInitErr m), [])
      | none =>
        match env.dbInit with
        | some m => (.error (dbInitErr m), [])
        | none =>
          let out := ingestLoop (file_paths.zip env.files)
          match env.persistResult with
          | some m => (.error (persistErr m), out.stored)
          | none =>
            if out.total_chunks = 0 then
              (.error (noDocsErr out.failed_files), out.stored)
            else
              (.ok
                { total_chunks := out.total_chunks
                  processed_files := out.processed_files.length
                  failed_files := out.failed_files.length
                  failures :=
                    if out.failed_files.isEmpty then none
                    else some out.failed_files
                  successes :=
                    if out.processed_files.isEmpty then none
                    else some out.processed_files },
                out.stored)

/-- `ingest.ingest_pdfs`: the body under the outer exception translation. -/
def ingest_pdfs (file_paths : List String) (env : IngestEnv) :
    Except Exc IngestResult :=
  (ingestRun file_paths env).1.mapError outerCatch

/-- The `ValidationError` (code `DOCUMENT_NOT_FOUND`) of `main.delete_docs`
when some requested ids are absent. -/
def documentNotFoundErr (invalid_ids : List String) : Exc :=
  .domain .validationError
    ("Some document IDs not found: " ++ pyStrList invalid_ids)
    .DOCUMENT_NOT_FOUND [("invalid_ids", .strs invalid_ids)] none

/-- `main.delete_docs` (lines 184-214), acting on the fetched store
contents (the ids `vectordb.get()` reports): validate the request is
non-empty, compute `invalid_ids = [i for i in req.ids if i not in
existing_ids]`, raise `DOCUMENT_NOT_FOUND` when any, else
`vectordb.delete(ids=req.ids)`.  Returns the endpoint outcome (the deleted
ids on success) paired with the store contents after the call. -/
def delete_docs (req_ids : List String) (store : List String) :
    Except Exc (List String) × List String :=
  if req_ids.isEmpty then
    (.error (.domain .validationError "No document IDs provided for deletion"
      .VALIDATION_ERROR [] none), store)
  else
    let invalid_ids := req_ids.filter (fun i => !(store.contains i))
    if invalid_ids.isEmpty then
      (.ok req_ids, store.filter (fun x => !(req_ids.contains x)))
    else
      (.error (documentNotFoundErr invalid_ids), store)

/-- The chain object `RetrievalQA.from_chain_type(...)` builds: the
configuration `get_rag_chain` passes (`k = 3` retriever,
`return_source_documents = True`). -/
structure QaChain where
  retriever_k : Nat
  return_source_documents : Bool
  deriving DecidableEq, Repr

/-- Outcomes of the external calls one first-time `get_rag_chain` invocation
makes: whether the persist directory exists, the embeddings-model and
Chroma constructors, `vectordb.get(limit=1)` (the content probe, returning
the reported ids or raising), the Gemini constructor, `as_retriever`, and
`RetrievalQA.from_chain_type`. -/
structure RagEnv where
  dirExists : Bool
  embedInit : Option String
  chromaInit : Option String
  probe : Except String (List String)
  llmInit : Option String
  retrieverInit : Option String
  chainInit : Option String

/-- The `DatabaseError` for a missing persist directory in `get_vectordb`. -/
def dirMissingErr : Exc :=
  .domain .databaseError
    ("Vector database directory does not exist: " ++ PERSIST_DIR)
    .DB_CONNECTION_ERROR [("persist_dir", .str PERSIST_DIR)] none

/-- The `DatabaseError` wrapping a raw Chroma failure in `get_vectordb`. -/
def chromaInitErr (m : String) : Exc :=
  .domain .databaseError ("Failed to initialize vector database: " ++ m)
    .VECTORDB_ERROR [("persist_dir", .str PERSIST_DIR)] (some (.raw m))

/-- `rag_chain.get_vectordb`: embeddings-model initialization (wrapped as
`EMBEDDING_ERROR` on failure), then the persist-directory check and Chroma
construction, where a `DatabaseError` passes unchanged and a raw failure is
wrapped as `VECTORDB_ERROR`. -/
def get_vectordb (env : RagEnv) : Except Exc Unit :=
  match env.embedInit with
  | some m => .error (embedInitErr m)
  | none =>
    if !env.dirExists then .error dirMissingErr
    else
      match env.chromaInit with
      | some m => .error (chromaInitErr m)
      | none => .ok ()

/-- The `DatabaseError` raised at `rag_chain.py` line 115 when the probe
succeeds and reports zero records. -/
def emptyDbErr : Exc :=
  .domain .databaseError
    "Vector database is empty. Please upload and process some documents first."
    .DB_OPERATION_ERROR [("persist_dir", .str PERSIST_DIR)] none

/-- The body of the content-verification `try` (lines 111-119): run the
probe (a raw failure if `vectordb.get(limit=1)` raises), and raise
`emptyDbErr` when it succeeds but reports no ids. -/
def contentCheck (probe : Except String (List String)) : Except Exc Unit :=
  match probe with
  | .error m => .error (.raw m)
  | .ok ids => if ids.isEmpty then .error emptyDbErr else .ok ()

/-- The `except Exception as db_check_error` at line 120: EVERY exception
the `try` body raised — the raw probe failure but also the `DatabaseError`
just raised for an empty store — is caught and turned into a logged
warning, and construction continues.  Returns the warnings logged. -/
def contentCheckCaught (probe : Except String (List String)) : List String :=
  match contentCheck probe with
  | .error e => ["Could not verify database content: " ++ e.pyStr]
  | .ok _ => []

/-- The `ModelError` for a Gemini LLM initialization failure. -/
def llmInitErr (m : String) : Exc :=
  .domain .modelError
    ("Failed to initialize Gemini LLM: " ++ m ++
      ". Please check your GOOGLE_API_KEY.")
    .LLM_ERROR [] (some (.raw m))

/-- The `DatabaseError` for an `as_retriever` failure. -/
def retrieverErr (m : String) : Exc :=
  .domain .databaseError
    ("Failed to create retriever from vector database: " ++ m)
    .RETRIEVAL_ERROR [] (some (.raw m))

/-- The `ModelError` for a `RetrievalQA.from_chain_type` failure. -/
def chainInitErr (m : String) : Exc :=
  .domain .modelError ("Failed to create RAG chain: " ++ m)
    .CHAIN_ERROR [] (some (.raw m))

/-- `rag_chain.get_rag_chain` as one sequential invocation: takes the
current value of the module-global `qa_chain` and the external-call
outcomes; returns the call's outcome, the global's new value, and the
warnings logged by the content-check handler. -/
def get_rag_chain (qa_chain : Option QaChain) (env : RagEnv) :
    Except Exc QaChain × Option QaChain × List String :=
  match qa_chain with
  | some c => (.ok c, some c, [])
  | none =>
    match get_vectordb env with
    | .error e => (.error e, none, [])
    | .ok _ =>
      let warnings := contentCheckCaught env.probe
      match env.llmInit with
      | some m => (.error (llmInitErr m), none, warnings)
      | none =>
        match env.retrieverInit with
        | some m => (.error (retrieverErr m), none, warnings)
        | none =>
          match env.chainInit with
          | some m => (.error (chainInitErr m), none, warnings)
          | none =>
            let built : QaChain := ⟨3, true⟩
            (.ok built, some built, warnings)

/-- The `failed_files` entry a file contributes when its processing fails
(the second component is unused when it succeeds). -/
def fileFailEntry (x : String × FileEnv) : String × String :=
  match processFile x.1 x.2 with
  | .inl f => f
  | .inr s => (s.1, "")

/-- Evaluation of a decimal digit string back to the number it denotes;
the left inverse used to show `Nat.repr` is injective. -/
def evalDigits (cs : List Char) : Nat :=
  cs.foldl (fun a c => 10 * a + (c.toNat - 48)) 0

/-- The character list of the literal `"_chunk_"` separating filename and
index inside a `doc_id`. -/
def sepChunk : List Char := ['_', 'c', 'h', 'u', 'n', 'k', '_']

/-- A first-time `get_rag_chain` call whose probe succeeds and reports zero
stored records, every other external call succeeding. -/
def probeEmptyEnv : RagEnv := ⟨true, none, none, .ok [], none, none, none⟩

/-- Environment for the C5 counterexample run: the one file exists and
every later stage would succeed. -/
def cenv5 : IngestEnv :=
  ⟨fun _ => true, none, none, [⟨.ok ["page"], .ok ["chunk text"], none⟩], none⟩

/-- Environment for the C6 counterexample run. -/
def cenv6 : IngestEnv :=
  ⟨fun _ => true, none, none, [⟨.ok ["page"], .ok ["chunk text"], none⟩], none⟩

/-- Environment for the C6 witness: later stages are made to fail
(embeddings initialization error, persist error) to exhibit that the
validation pass aborts before they are ever consulted. -/
def cenv6w : IngestEnv :=
  ⟨fun _ => true, some "would fail", none, [], some "would fail"⟩

/-- The typed error `validate_file_type` raises for `doc.txt` (used by the
C6 witness). -/
def cexTypeErr6 : Exc :=
  .domain .validationError
    ("File type .txt not allowed. Allowed types: " ++ pyStrList DEFAULT_ALLOWED)
    .INVALID_FILE_FORMAT
    [("filename", .str "doc.txt"), ("extension", .str ".txt")] none

/-- Environment for the C3 witness: two files, the first fully succeeding
with two chunks, the second failing at the PDF loader. -/
def cenv3 : IngestEnv :=
  ⟨fun _ => true, none, none,
    [⟨.ok ["page one"], .ok ["chunk a", "chunk b"], none⟩,
     ⟨.error "broken stream", .ok [], none⟩], none⟩

/-- Environment for the C4 witness: both files fail at the PDF loader. -/
def cenv4 : IngestEnv :=
  ⟨fun _ => true, none, none,
    [⟨.error "broken stream", .ok [], none⟩,
     ⟨.ok [], .ok [], none⟩], none⟩

/-- Environment for the C7 run: two paths with the same basename, both
succeeding with one chunk each. -/
def cenv7 : IngestEnv :=
  ⟨fun _ => true, none, none,
    [⟨.ok ["page"], .ok ["first text"], none⟩,
     ⟨.ok ["page"], .ok ["second text"], none⟩], none⟩

/-- Environment for the C7 witness: two distinct basenames, each
succeeding, the first with two chunks. -/
def cenv7w : IngestEnv :=
  ⟨fun _ => true, none, none,
    [⟨.ok ["page"], .ok ["chunk a", "chunk b"], none⟩,
     ⟨.ok ["page"], .ok ["chunk c"], none⟩], none⟩

end AskPdf

namespace AskPdf

/-- C10: `validate_file_size` uses a strict inequality: it returns `True`
exactly when `file_size ≤ max_size_mb * 1024 * 1024` (so a file of exactly
the maximum size is accepted, for the default `max_size_mb = 50` as for any
other limit) and raises the `FILE_SIZE_EXCEEDED` error exactly when the
size strictly exceeds the limit. -/
theorem validate_file_size_strict (file_size max_size_mb : Nat) :
    validate_file_size file_size max_size_mb =
      (if file_size ≤ max_size_mb * 1024 * 1024 then .ok true
       else .error (fileSizeErr file_size max_size_mb)) ∧
    (fileSizeErr file_size max_size_mb).code = some .FILE_SIZE_EXCEEDED := by
  refine ⟨?_, rfl⟩
  unfold validate_file_size
  rcases le_or_lt file_size (max_size_mb * 1024 * 1024) with h | h
  · rw [if_neg (by omega : ¬file_size > max_size_mb * 1024 * 1024), if_pos h]
  · rw [if_pos (by omega : file_size > max_size_mb * 1024 * 1024),
      if_neg (by omega : ¬file_size ≤ max_size_mb * 1024 * 1024)]

/-- C2 counterexample: `UNKNOWN_ERROR` is not a client-fault code, yet the
handler maps it to status 400, a 4xx status — so the status class is not
4xx exactly on client-fault codes. -/
theorem askpdf_status_unknown_is_4xx :
    is4xx (askpdf_exception_handler_status .UNKNOWN_ERROR) ∧
    specClientFaultCode .UNKNOWN_ERROR = false := by
  exact ⟨⟨by decide, by decide⟩, rfl⟩

/-- C2 amended: the handler maps every error code to 400 except
`INTERNAL_SERVER_ERROR`, which alone maps to 500; so the status class is
4xx exactly when the code differs from `INTERNAL_SERVER_ERROR`, regardless
of the spec's client-fault grouping. -/
theorem askpdf_status_eq (c : ErrorCode) :
    askpdf_exception_handler_status c =
      (if c = .INTERNAL_SERVER_ERROR then 500 else 400) := by
  cases c <;> rfl

/-- C1: when the probe succeeds and explicitly reports zero records, the
`try` body does raise the storage error `emptyDbErr` (code
`DB_OPERATION_ERROR`) — but the blanket `except Exception` at
`rag_chain.py` line 120 catches that very error too, downgrades it to the
logged warning, and construction continues and succeeds.  The call
therefore does NOT fail with a storage error, contradicting the claim (and
the code's own raise): only the raising, not the failing, happens. -/
theorem rag_chain_empty_store_not_fatal :
    contentCheck (.ok []) = .error emptyDbErr ∧
    emptyDbErr.code = some .DB_OPERATION_ERROR ∧
    (get_rag_chain none probeEmptyEnv).1 = .ok ⟨3, true⟩ ∧
    (get_rag_chain none probeEmptyEnv).2.1 = some ⟨3, true⟩ ∧
    (get_rag_chain none probeEmptyEnv).2.2 =
      ["Could not verify database content: Vector database is empty. Please upload and process some documents first."] :=
  ⟨rfl, rfl, rfl, rfl, rfl⟩

/-- C9: when at least one requested id is absent from the store,
`delete_docs` raises the `DOCUMENT_NOT_FOUND` error listing exactly the
missing ids in its details, no delete is issued, and the store is returned
unchanged — the not-found check is all-or-nothing within the call. -/
theorem delete_docs_missing_id_atomic (req_ids store : List String)
    (h : ∃ i ∈ req_ids, i ∉ store) :
    (delete_docs req_ids store).1 =
      .error (documentNotFoundErr
        (req_ids.filter (fun i => !(store.contains i)))) ∧
    (documentNotFoundErr (req_ids.filter (fun i => !(store.contains i)))).code =
      some .DOCUMENT_NOT_FOUND ∧
    (documentNotFoundErr (req_ids.filter (fun i => !(store.contains i)))).details =
      [("invalid_ids", .strs (req_ids.filter (fun i => !(store.contains i))))] ∧
    (∀ i ∈ req_ids, i ∉ store →
      i ∈ req_ids.filter (fun i => !(store.contains i))) ∧
    (delete_docs req_ids store).2 = store := by
  obtain ⟨i, hmem, hnot⟩ := h
  have hne : req_ids.isEmpty = false := by
    cases req_ids with
    | nil => cases hmem
    | cons a l => rfl
  have hcond : ¬(∀ a ∈ req_ids, a ∈ store) := fun hall => hnot (hall i hmem)
  refine ⟨?_, rfl, rfl, ?_, ?_⟩
  · simp [delete_docs, hne, hcond]
  · intro j hj hnj
    simp [List.mem_filter, hj, hnj]
  · simp [delete_docs, hne, hcond]

/-- C9 witness: requesting id `x` against a store holding only `y` raises
with the store left unchanged. -/
theorem delete_docs_missing_id_atomic_witness :
    (delete_docs ["x"] ["y"]).1 = .error (documentNotFoundErr ["x"]) ∧
    (delete_docs ["x"] ["y"]).2 = ["y"] :=
  ⟨(delete_docs_missing_id_atomic ["x"] ["y"]
      ⟨"x", by simp, by simp⟩).1,
   (delete_docs_missing_id_atomic ["x"] ["y"]
      ⟨"x", by simp, by simp⟩).2.2.2.2⟩

/-- C5 amended: the outer catch of `ingest_pdfs` (lines 195-197) does
re-raise an already-typed domain error unchanged, but the per-path
file-type validation catch (lines 51-57) does not: it catches the typed
error `validate_file_type` raised and wraps it into a NEW `FileError`
(keeping `INVALID_FILE_FORMAT` as the code and recording the caught error
as `original_error`), so at that site a typed domain error does not
propagate unchanged. -/
theorem typed_error_rewrapped_at_validation (k : ExcKind) (m : String)
    (c : ErrorCode) (d : List (String × DetailVal)) (o : Option Exc)
    (p : String) :
    outerCatch (.domain k m c d o) = .domain k m c d o ∧
    (fileTypeWrapErr p (.domain k m c d o)).original =
      some (.domain k m c d o) ∧
    (fileTypeWrapErr p (.domain k m c d o)).code =
      some .INVALID_FILE_FORMAT ∧
    fileTypeWrapErr p (.domain k m c d o) ≠ .domain k m c d o := by
  refine ⟨rfl, rfl, rfl, ?_⟩
  intro h
  have hd := congrArg Exc.depth h
  rw [show (fileTypeWrapErr p (.domain k m c d o)).depth =
      (Exc.domain k m c d o).depth + 1 from rfl] at hd
  omega

/-- C5 counterexample: for the batch `["notes.md"]`, `validate_file_type`
raises a typed domain error `v`, yet `ingest_pdfs` raises a different
error `w` that wraps `v` as its `original_error` — the typed error was
re-wrapped at the file-type validation catch site, not propagated
unchanged. -/
theorem ingest_rewraps_typed_validation_error :
    ∃ v w, validate_file_type (basename "notes.md") DEFAULT_ALLOWED =
        .error v ∧
      ingest_pdfs ["notes.md"] cenv5 = .error w ∧
      w.original = some v ∧ v.original = none ∧ w ≠ v := by
  refine ⟨_, _, rfl, rfl, rfl, rfl, ?_⟩
  intro h
  exact Option.noConfusion (congrArg Exc.original h)

/-- All earlier paths passing the validation pass and path `p` existing but
failing `validate_file_type` with `e`, `validatePaths` stops at `p` with
the wrapped error. -/
theorem validatePaths_append_err (fs : String → Bool) (pre : List String)
    (p : String) (post : List String) (e : Exc)
    (hpre : ∀ q ∈ pre, fs q = true ∧
      validate_file_type (basename q) DEFAULT_ALLOWED = .ok true)
    (hp : fs p = true)
    (he : validate_file_type (basename p) DEFAULT_ALLOWED = .error e) :
    validatePaths fs (pre ++ p :: post) = .error (fileTypeWrapErr p e) := by
  induction pre with
  | nil => simp [validatePaths, hp, he]
  | cons q pre ih =>
    obtain ⟨hq, hqv⟩ := hpre q (by simp)
    have hrest := ih (fun r hr => hpre r (by simp [hr]))
    simpa [validatePaths, hq, hqv] using hrest

/-- C6 amended: a path with a disallowed extension aborts the whole call
during the validation pass, before any file is processed (the outcome does
not depend on any per-file or persist outcome and no chunk is stored), with
code `INVALID_FILE_FORMAT` — but the raised error's own details hold only
the file path; the rejected filename and extension sit in the details of
the wrapped `original_error`, not of the raised error. -/
theorem ingest_invalid_extension_fail_fast (pre : List String) (p : String)
    (post : List String) (e : Exc) (env : IngestEnv)
    (hpre : ∀ q ∈ pre, env.fsExists q = true ∧
      validate_file_type (basename q) DEFAULT_ALLOWED = .ok true)
    (hp : env.fsExists p = true)
    (he : validate_file_type (basename p) DEFAULT_ALLOWED = .error e) :
    ingestRun (pre ++ p :: post) env = (.error (fileTypeWrapErr p e), []) ∧
    ingest_pdfs (pre ++ p :: post) env = .error (fileTypeWrapErr p e) ∧
    (fileTypeWrapErr p e).code = some .INVALID_FILE_FORMAT ∧
    (fileTypeWrapErr p e).details = [("file_path", .str p)] ∧
    (fileTypeWrapErr p e).original = some e ∧
    (e.code = some .INVALID_FILE_FORMAT →
      e.details = [("filename", .str (basename p)),
        ("extension", .str (file_extension (basename p)))]) := by
  have hv := validatePaths_append_err env.fsExists pre p post e hpre hp he
  have hne : (pre ++ p :: post).isEmpty = false := by
    cases pre <;> rfl
  have hrun : ingestRun (pre ++ p :: post) env =
      (.error (fileTypeWrapErr p e), []) := by
    simp [ingestRun, hne, hv]
  refine ⟨hrun, ?_, rfl, rfl, rfl, ?_⟩
  · simp only [ingest_pdfs, hrun]
    rfl
  · intro hc
    by_cases h0 : basename p = ""
    · simp only [validate_file_type, h0, if_pos, if_true, reduceIte] at he
      obtain rfl : Exc.domain .validationError "Filename cannot be empty"
          .VALIDATION_ERROR [] none = e := by
        injection he
      cases hc
    · simp only [validate_file_type, h0, reduceIte] at he
      by_cases hmem : file_extension (basename p) ∈ DEFAULT_ALLOWED
      · rw [if_pos hmem] at he; cases he
      · rw [if_neg hmem] at he
        injection he with h1
        rw [← h1]
        rfl

/-- C6 counterexample: for the batch `["up/doc.txt"]` the call does fail
fast with `INVALID_FILE_FORMAT`, but the raised error's details are only
`{"file_path": "up/doc.txt"}` — neither the rejected filename `doc.txt`
nor its extension `.txt` appears among the raised error's detail values,
contradicting the claim's details clause. -/
theorem ingest_invalid_extension_details_lack_extension :
    ∃ w, ingest_pdfs ["up/doc.txt"] cenv6 = .error w ∧
      w.code = some .INVALID_FILE_FORMAT ∧
      w.details = [("file_path", .str "up/doc.txt")] ∧
      ∀ kv ∈ w.details,
        kv.2 ≠ DetailVal.str ".txt" ∧ kv.2 ≠ DetailVal.str "doc.txt" := by
  refine ⟨_, rfl, rfl, rfl, ?_⟩
  decide

/-- C6 witness: with one valid path before and one path after, the batch
aborts at `up/doc.txt` during validation even though the embeddings model
and persist calls of this environment would fail — nothing past the
validation pass runs and nothing is stored. -/
theorem ingest_invalid_extension_fail_fast_witness :
    ingestRun ["a.pdf", "up/doc.txt", "b.pdf"] cenv6w =
      (.error (fileTypeWrapErr "up/doc.txt" cexTypeErr6), []) ∧
    (fileTypeWrapErr "up/doc.txt" cexTypeErr6).details =
      [("file_path", .str "up/doc.txt")] ∧
    cexTypeErr6.details =
      [("filename", .str (basename "up/doc.txt")),
        ("extension", .str (file_extension (basename "up/doc.txt")))] :=
  have h := ingest_invalid_extension_fail_fast ["a.pdf"] "up/doc.txt"
    ["b.pdf"] cexTypeErr6 cenv6w
    (by intro q hq; simp only [List.mem_singleton] at hq; subst hq
        exact ⟨rfl, rfl⟩)
    rfl rfl
  ⟨h.1, h.2.2.2.1, h.2.2.2.2.2 rfl⟩

/-- The running total the ingestion loop keeps equals the sum of the chunk
counts over its success entries. -/
theorem ingestLoop_total_eq_sum (l : List (String × FileEnv)) :
    (ingestLoop l).total_chunks =
      ((ingestLoop l).processed_files.map Prod.snd).sum := by
  induction l with
  | nil => rfl
  | cons x rest ih =>
    cases hpf : processFile x.1 x.2 with
    | inl f => simp [ingestLoop, hpf, ih]
    | inr s => simp [ingestLoop, hpf, ih]

/-- A file the loop records as a success contributed at least one chunk
(the loop body rejects empty chunk lists before the upsert). -/
theorem processFile_inr_pos (x : String × FileEnv)
    (s : String × List ChunkMeta) (h : processFile x.1 x.2 = .inr s) :
    0 < s.2.length := by
  obtain ⟨p, ld, sp, ad⟩ := x
  rcases ld with m | docs
  · simp [processFile] at h
  · rcases docs with _ | ⟨d, ds⟩
    · simp [processFile] at h
    · rcases sp with m | cts
      · simp [processFile] at h
      · rcases cts with _ | ⟨c, cs⟩
        · simp [processFile] at h
        · rcases ad with _ | m
          · obtain ⟨s1, s2⟩ := s
            simp only [processFile, List.isEmpty_cons, Bool.false_eq_true,
              if_false, Sum.inr.injEq, Prod.mk.injEq] at h
            obtain ⟨h1, h2⟩ := h
            rw [← h2]
            simp
          · simp [processFile] at h

/-- Every success entry of the loop has a positive chunk count. -/
theorem ingestLoop_processed_pos (l : List (String × FileEnv)) :
    ∀ pr ∈ (ingestLoop l).processed_files, 0 < pr.2 := by
  induction l with
  | nil => intro pr hpr; cases hpr
  | cons x rest ih =>
    intro pr hpr
    cases hpf : processFile x.1 x.2 with
    | inl f =>
      simp only [ingestLoop, hpf] at hpr
      exact ih pr hpr
    | inr s =>
      simp only [ingestLoop, hpf, List.mem_cons] at hpr
      rcases hpr with h1 | h1
      · rw [h1]
        exact processFile_inr_pos x s hpf
      · exact ih pr h1

/-- If at least one file succeeded, the loop's running total is nonzero. -/
theorem ingestLoop_total_pos (l : List (String × FileEnv))
    (h : (ingestLoop l).processed_files ≠ []) :
    (ingestLoop l).total_chunks ≠ 0 := by
  rw [ingestLoop_total_eq_sum]
  cases hp : (ingestLoop l).processed_files with
  | nil => exact absurd hp h
  | cons pr rest =>
    have hpos : 0 < pr.2 :=
      ingestLoop_processed_pos l pr (by rw [hp]; exact List.mem_cons_self _ _)
    simp only [hp, List.map_cons, List.sum_cons]
    omega

/-- C3: whenever the batch passes validation and the fatal steps succeed
and at least one file is ingested successfully, `ingest_pdfs` returns a
success result whose `total_chunks` equals the sum of the chunk counts of
its per-file success entries, with the per-file failures (when any) listed
separately in the same result — partial successes are never discarded. -/
theorem ingest_keeps_partial_successes (file_paths : List String)
    (env : IngestEnv)
    (hval : validatePaths env.fsExists file_paths = .ok ())
    (hemb : env.embedInit = none) (hdb : env.dbInit = none)
    (hper : env.persistResult = none)
    (hsucc : (ingestLoop (file_paths.zip env.files)).processed_files ≠ []) :
    ∃ r, ingest_pdfs file_paths env = .ok r ∧
      r.successes = some (ingestLoop (file_paths.zip env.files)).processed_files ∧
      r.total_chunks =
        ((ingestLoop (file_paths.zip env.files)).processed_files.map
          Prod.snd).sum ∧
      r.failures =
        (if (ingestLoop (file_paths.zip env.files)).failed_files.isEmpty
         then none
         else some (ingestLoop (file_paths.zip env.files)).failed_files) ∧
      r.failed_files =
        (ingestLoop (file_paths.zip env.files)).failed_files.length := by
  have hne : file_paths.isEmpty = false := by
    cases hfp : file_paths with
    | nil =>
      exfalso
      apply hsucc
      rw [hfp]
      rfl
    | cons a l => rfl
  have htot := ingestLoop_total_pos (file_paths.zip env.files) hsucc
  have hpe : (ingestLoop (file_paths.zip env.files)).processed_files.isEmpty
      = false := by
    cases hp : (ingestLoop (file_paths.zip env.files)).processed_files with
    | nil => exact absurd hp hsucc
    | cons a l => rfl
  refine ⟨{ total_chunks := (ingestLoop (file_paths.zip env.files)).total_chunks
            processed_files :=
              (ingestLoop (file_paths.zip env.files)).processed_files.length
            failed_files :=
              (ingestLoop (file_paths.zip env.files)).failed_files.length
            failures :=
              if (ingestLoop (file_paths.zip env.files)).failed_files.isEmpty
              then none
              else some (ingestLoop (file_paths.zip env.files)).failed_files
            successes :=
              some (ingestLoop (file_paths.zip env.files)).processed_files },
    ?_, rfl, ingestLoop_total_eq_sum _, rfl, rfl⟩
  simp [ingest_pdfs, ingestRun, hne, hval, hemb, hdb, hper, htot, hpe]
  rfl

/-- C3 witness: a two-file batch where the first file yields two chunks and
the second fails at the loader returns success with total 2 and the failure
listed. -/
theorem ingest_keeps_partial_successes_witness :
    ∃ r, ingest_pdfs ["good.pdf", "bad.pdf"] cenv3 = .ok r ∧
      r.successes =
        some (ingestLoop (["good.pdf", "bad.pdf"].zip cenv3.files)).processed_files ∧
      r.total_chunks =
        ((ingestLoop (["good.pdf", "bad.pdf"].zip cenv3.files)).processed_files.map
          Prod.snd).sum ∧
      r.failures =
        (if (ingestLoop (["good.pdf", "bad.pdf"].zip cenv3.files)).failed_files.isEmpty
         then none
         else some (ingestLoop (["good.pdf", "bad.pdf"].zip cenv3.files)).failed_files) ∧
      r.failed_files =
        (ingestLoop (["good.pdf", "bad.pdf"].zip cenv3.files)).failed_files.length :=
  ingest_keeps_partial_successes ["good.pdf", "bad.pdf"] cenv3
    rfl rfl rfl rfl (by decide)

/-- Under the all-files-fail hypothesis the loop collects exactly one
failure entry per input pair, in input order, and nothing else. -/
theorem ingestLoop_all_fail (l : List (String × FileEnv))
    (h : ∀ x ∈ l, (processFile x.1 x.2).isLeft) :
    (ingestLoop l).failed_files = l.map fileFailEntry ∧
    (ingestLoop l).processed_files = [] ∧
    (ingestLoop l).total_chunks = 0 ∧
    (ingestLoop l).stored = [] := by
  induction l with
  | nil => exact ⟨rfl, rfl, rfl, rfl⟩
  | cons x rest ih =>
    have hx := h x (List.mem_cons_self _ _)
    obtain ⟨h1, h2, h3, h4⟩ := ih (fun y hy => h y (List.mem_cons_of_mem _ hy))
    cases hpf : processFile x.1 x.2 with
    | inl f =>
      refine ⟨?_, ?_, ?_, ?_⟩ <;>
        simp [ingestLoop, hpf, h1, h2, h3, h4, fileFailEntry]
    | inr s =>
      rw [hpf] at hx
      cases hx

/-- C4: a non-empty batch that passes validation, whose fatal steps
succeed, and in which every file fails its per-file processing, makes
`ingest_pdfs` fail with `PDF_PROCESSING_ERROR`; the loop total is zero,
nothing is stored, and the error's details carry exactly one failure entry
per input file, in input order. -/
theorem ingest_all_files_fail (file_paths : List String) (env : IngestEnv)
    (hne : file_paths ≠ [])
    (hlen : env.files.length = file_paths.length)
    (hval : validatePaths env.fsExists file_paths = .ok ())
    (hemb : env.embedInit = none) (hdb : env.dbInit = none)
    (hper : env.persistResult = none)
    (hfail : ∀ x ∈ file_paths.zip env.files, (processFile x.1 x.2).isLeft) :
    ingest_pdfs file_paths env =
      .error (noDocsErr ((file_paths.zip env.files).map fileFailEntry)) ∧
    (noDocsErr ((file_paths.zip env.files).map fileFailEntry)).code =
      some .PDF_PROCESSING_ERROR ∧
    (noDocsErr ((file_paths.zip env.files).map fileFailEntry)).details =
      [("failed_files",
        .pairs ((file_paths.zip env.files).map fileFailEntry))] ∧
    ((file_paths.zip env.files).map fileFailEntry).length =
      file_paths.length ∧
    (ingestLoop (file_paths.zip env.files)).total_chunks = 0 ∧
    (ingestRun file_paths env).2 = [] := by
  obtain ⟨h1, h2, h3, h4⟩ := ingestLoop_all_fail (file_paths.zip env.files) hfail
  have hnee : file_paths.isEmpty = false := by
    cases file_paths with
    | nil => exact absurd rfl hne
    | cons a l => rfl
  have hlz : ((file_paths.zip env.files).map fileFailEntry).length =
      file_paths.length := by
    rw [List.length_map, List.length_zip, hlen, Nat.min_self]
  refine ⟨?_, rfl, rfl, hlz, h3, ?_⟩
  · simp only [ingest_pdfs, ingestRun, hnee, Bool.false_eq_true, if_false,
      hval, hemb, hdb, hper, h3, if_pos, h1]
    rfl
  · simp only [ingestRun, hnee, Bool.false_eq_true, if_false, hval, hemb,
      hdb, hper, h3, if_pos, h4]

/-- C4 witness: a two-file batch where both files fail at loading (one
raising, one empty) fails with one entry per file in input order. -/
theorem ingest_all_files_fail_witness :
    ingest_pdfs ["a.pdf", "b.pdf"] cenv4 =
      .error (noDocsErr ((["a.pdf", "b.pdf"].zip cenv4.files).map fileFailEntry)) ∧
    ((["a.pdf", "b.pdf"].zip cenv4.files).map fileFailEntry).length = 2 ∧
    (["a.pdf", "b.pdf"].zip cenv4.files).map fileFailEntry =
      [("a.pdf", "PDF loading failed: broken stream"),
       ("b.pdf", "PDF appears to be empty or corrupted")] :=
  have h := ingest_all_files_fail ["a.pdf", "b.pdf"] cenv4
    (by decide) rfl rfl rfl rfl rfl (by decide)
  ⟨h.1, h.2.2.2.1, rfl⟩

/-- The decimal digit characters have the expected codes. -/
theorem digitChar_toNat : ∀ d < 10, (Nat.digitChar d).toNat = 48 + d := by
  decide

/-- The decimal digit characters are digits. -/
theorem digitChar_isDigit : ∀ d < 10, (Nat.digitChar d).isDigit = true := by
  decide

/-- `Nat.toDigitsCore` emits its accumulator unchanged on the right. -/
theorem toDigitsCore_append (fuel n : Nat) (acc : List Char) :
    Nat.toDigitsCore 10 fuel n acc = Nat.toDigitsCore 10 fuel n [] ++ acc := by
  induction fuel generalizing n acc with
  | zero => rfl
  | succ f ih =>
    simp only [Nat.toDigitsCore]
    by_cases h : n / 10 = 0
    · simp [h]
    · rw [if_neg h, if_neg h, ih (n / 10) (Nat.digitChar (n % 10) :: acc),
        ih (n / 10) [Nat.digitChar (n % 10)], List.append_assoc]
      rfl

/-- Folding one more digit onto the right of a digit string. -/
theorem evalDigits_append_digit (cs : List Char) (c : Char) :
    evalDigits (cs ++ [c]) = 10 * evalDigits cs + (c.toNat - 48) := by
  simp [evalDigits, List.foldl_append]

/-- With sufficient fuel, evaluating the emitted digits recovers the
number: `Nat.toDigitsCore` writes the standard decimal representation. -/
theorem toDigitsCore_eval (fuel : Nat) :
    ∀ n, n < fuel → evalDigits (Nat.toDigitsCore 10 fuel n []) = n := by
  induction fuel with
  | zero => omega
  | succ f ih =>
    intro n hn
    simp only [Nat.toDigitsCore]
    by_cases h0 : n / 10 = 0
    · rw [if_pos h0]
      have hd := digitChar_toNat (n % 10) (Nat.mod_lt _ (by omega))
      simp only [evalDigits, List.foldl_cons, List.foldl_nil, hd]
      omega
    · rw [if_neg h0, toDigitsCore_append, evalDigits_append_digit,
        ih (n / 10) (by omega),
        digitChar_toNat (n % 10) (Nat.mod_lt _ (by omega))]
      omega

/-- The characters `Nat.toDigitsCore` emits (base 10, sufficient fuel) are
all decimal digits. -/
theorem toDigitsCore_digits (fuel : Nat) :
    ∀ n, n < fuel → ∀ c ∈ Nat.toDigitsCore 10 fuel n [], c.isDigit = true := by
  induction fuel with
  | zero => omega
  | succ f ih =>
    intro n hn c hc
    simp only [Nat.toDigitsCore] at hc
    by_cases h0 : n / 10 = 0
    · rw [if_pos h0] at hc
      rw [List.mem_singleton] at hc
      rw [hc]
      exact digitChar_isDigit (n % 10) (Nat.mod_lt _ (by omega))
    · rw [if_neg h0, toDigitsCore_append] at hc
      rcases List.mem_append.1 hc with h1 | h1
      · exact ih (n / 10) (by omega) c h1
      · rw [List.mem_singleton] at h1
        rw [h1]
        exact digitChar_isDigit (n % 10) (Nat.mod_lt _ (by omega))

/-- The characters of `Nat.repr n` as `Nat.toDigitsCore` produces them. -/
theorem repr_data (n : Nat) :
    (Nat.repr n).data = Nat.toDigitsCore 10 (n + 1) n [] := rfl

/-- Evaluating the decimal representation recovers the number. -/
theorem repr_eval (n : Nat) : evalDigits (Nat.repr n).data = n := by
  rw [repr_data]
  exact toDigitsCore_eval (n + 1) n (Nat.lt_succ_self n)

/-- `Nat.repr` is injective. -/
theorem repr_injective (m n : Nat) (h : Nat.repr m = Nat.repr n) : m = n := by
  have h2 := congrArg (fun s => evalDigits s.data) h
  simpa only [repr_eval] using h2

/-- Every character of `Nat.repr n` is a decimal digit. -/
theorem repr_all_digits (n : Nat) :
    ∀ c ∈ (Nat.repr n).data, c.isDigit = true := by
  rw [repr_data]
  exact toDigitsCore_digits (n + 1) n (Nat.lt_succ_self n)

/-- `takeWhile` applied to a list of satisfying elements followed by a
non-satisfying one returns exactly the satisfying block. -/
theorem takeWhile_append_not (p : Char → Bool) (xs : List Char) (y : Char)
    (ys : List Char) (hxs : ∀ x ∈ xs, p x = true) (hy : p y = false) :
    (xs ++ y :: ys).takeWhile p = xs := by
  induction xs with
  | nil => simp [List.takeWhile_cons, hy]
  | cons a l ih =>
    have ha := hxs a (List.mem_cons_self _ _)
    simp [List.takeWhile_cons, ha,
      ih (fun x hx => hxs x (List.mem_cons_of_mem _ hx))]

/-- Splitting a string of the shape `prefix-part ++ "_chunk_" ++ digits` is
unambiguous: a `doc_id` determines its filename part and its digit part.
The last `"_chunk_"` occurrence is pinned down by the digit block at the
end (digits contain no underscore). -/
theorem sep_digits_inj (a1 a2 d1 d2 : List Char)
    (h1 : ∀ c ∈ d1, c.isDigit = true) (h2 : ∀ c ∈ d2, c.isDigit = true)
    (h : a1 ++ (sepChunk ++ d1) = a2 ++ (sepChunk ++ d2)) :
    a1 = a2 ∧ d1 = d2 := by
  have hrev := congrArg List.reverse h
  simp only [List.reverse_append] at hrev
  rw [List.append_assoc, List.append_assoc] at hrev
  have e1 : d1.reverse ++ ('_' :: (['k', 'n', 'u', 'h', 'c', '_'] ++ a1.reverse)) =
      d2.reverse ++ ('_' :: (['k', 'n', 'u', 'h', 'c', '_'] ++ a2.reverse)) := hrev
  have hd1r : ∀ x ∈ d1.reverse, Char.isDigit x = true :=
    fun x hx => h1 x (List.mem_reverse.1 hx)
  have hd2r : ∀ x ∈ d2.reverse, Char.isDigit x = true :=
    fun x hx => h2 x (List.mem_reverse.1 hx)
  have hdr : d1.reverse = d2.reverse := by
    have h3 := congrArg (List.takeWhile Char.isDigit) e1
    rwa [takeWhile_append_not _ _ _ _ hd1r (by decide),
      takeWhile_append_not _ _ _ _ hd2r (by decide)] at h3
  have hd : d1 = d2 := by
    have := congrArg List.reverse hdr
    simpa using this
  refine ⟨?_, hd⟩
  rw [hd] at h
  rw [← List.append_assoc, ← List.append_assoc] at h
  exact List.append_cancel_right (List.append_cancel_right h)

/-- A `doc_id` determines the filename and the chunk index it was stamped
from. -/
theorem mkDocId_inj (f1 f2 : String) (i j : Nat)
    (h : mkDocId f1 i = mkDocId f2 j) : f1 = f2 ∧ i = j := by
  have hd := congrArg String.data h
  simp only [mkDocId, String.data_append] at hd
  rw [List.append_assoc, List.append_assoc] at hd
  have hd2 : f1.data ++ (sepChunk ++ (Nat.repr i).data) =
      f2.data ++ (sepChunk ++ (Nat.repr j).data) := hd
  obtain ⟨hf, hr⟩ :=
    sep_digits_inj _ _ _ _ (repr_all_digits i) (repr_all_digits j) hd2
  exact ⟨String.ext hf, repr_injective i j (String.ext hr)⟩

/-- The chunks the loop stores are the concatenation, in input order, of
the chunks of each successfully processed file. -/
theorem ingestLoop_stored (l : List (String × FileEnv)) :
    (ingestLoop l).stored = l.flatMap (fun x =>
      match processFile x.1 x.2 with
      | .inl _ => []
      | .inr s => s.2) := by
  induction l with
  | nil => rfl
  | cons x rest ih =>
    cases hpf : processFile x.1 x.2 with
    | inl f => simp [ingestLoop, hpf, ih]
    | inr s => simp [ingestLoop, hpf, ih]

/-- Mapping a function of the index over an enumerated list is mapping it
over the index range. -/
theorem enumFrom_map_comp_fst {α β : Type} (g : Nat → β) (n : Nat)
    (l : List α) :
    (l.enumFrom n).map (fun q => g q.1) = (List.range' n l.length).map g := by
  induction l generalizing n with
  | nil => rfl
  | cons a l ih => simp [List.enumFrom_cons, List.range'_succ, ih]

/-- The `enum` version of `enumFrom_map_comp_fst`. -/
theorem enum_map_comp_fst {α β : Type} (g : Nat → β) (l : List α) :
    l.enum.map (fun q => g q.1) = (List.range l.length).map g := by
  rw [List.range_eq_range']
  exact enumFrom_map_comp_fst g 0 l

/-- What a successful `processFile` stamps: the filename is the path's
basename, the chunk indices are `0, 1, …` in order, every chunk carries
that filename as `source_file`, and each `doc_id` is
`mkDocId source_file chunk_index`. -/
theorem processFile_inr_struct (p : String) (fe : FileEnv) (fn : String)
    (cs : List ChunkMeta) (h : processFile p fe = .inr (fn, cs)) :
    fn = basename p ∧
    cs.map ChunkMeta.doc_id =
      (List.range cs.length).map (mkDocId (basename p)) ∧
    cs.map ChunkMeta.chunk_index = List.range cs.length ∧
    cs.map ChunkMeta.source_file = List.replicate cs.length (basename p) ∧
    (∀ c ∈ cs, c.doc_id = mkDocId c.source_file c.chunk_index) := by
  obtain ⟨ld, sp, ad⟩ := fe
  rcases ld with m | docs
  · simp [processFile] at h
  · rcases docs with _ | ⟨d, ds⟩
    · simp [processFile] at h
    · rcases sp with m | cts
      · simp [processFile] at h
      · rcases cts with _ | ⟨c0, cs0⟩
        · simp [processFile] at h
        · rcases ad with _ | m
          · simp only [processFile, List.isEmpty_cons, Bool.false_eq_true,
              if_false, Sum.inr.injEq, Prod.mk.injEq] at h
            obtain ⟨hfn, hcs⟩ := h
            subst hfn
            subst hcs
            have hlen : ((c0 :: cs0).enum.map (fun q =>
                (⟨mkDocId (basename p) q.1, basename p, q.1, q.2⟩ :
                  ChunkMeta))).length = (c0 :: cs0).length := by
              rw [List.length_map, List.enum_length]
            refine ⟨rfl, ?_, ?_, ?_, ?_⟩
            · rw [hlen, List.map_map]
              exact enum_map_comp_fst (mkDocId (basename p)) (c0 :: cs0)
            · rw [hlen, List.map_map]
              have h2 := enum_map_comp_fst (fun i : Nat => i) (c0 :: cs0)
              rw [List.map_id'] at h2
              exact h2
            · rw [hlen, List.map_map]
              have h3 : (c0 :: cs0).enum.map (fun _ => basename p) =
                  List.replicate (c0 :: cs0).length (basename p) := by
                rw [List.map_const', List.enum_length]
              exact h3
            · intro c hc
              rw [List.mem_map] at hc
              obtain ⟨q, _, hq⟩ := hc
              rw [← hq]
          · simp [processFile] at h

/-- The basenames of the zipped batch form a sublist of the basenames of
the full path list. -/
theorem zip_map_basename_sublist (fp : List String) (fs : List FileEnv) :
    ((fp.zip fs).map (fun x => basename x.1)).Sublist (fp.map basename) := by
  induction fp generalizing fs with
  | nil => simp
  | cons p fp ih =>
    cases fs with
    | nil => simp
    | cons f fs =>
      simpa [List.zip_cons_cons] using (ih fs).cons₂ (basename p)

/-- With pairwise-distinct basenames in the batch, the `doc_id` values of
all chunks the loop stores are pairwise distinct. -/
theorem ingestLoop_doc_ids_nodup (l : List (String × FileEnv))
    (hnd : (l.map (fun x => basename x.1)).Nodup) :
    ((ingestLoop l).stored.map ChunkMeta.doc_id).Nodup := by
  rw [ingestLoop_stored, List.map_flatMap]
  apply List.nodup_flatMap.2
  constructor
  · intro x hx
    rcases hpf : processFile x.1 x.2 with f | ⟨fn, cs⟩
    · exact List.nodup_nil
    · obtain ⟨-, hids, -, -, -⟩ := processFile_inr_struct x.1 x.2 fn cs hpf
      show (cs.map ChunkMeta.doc_id).Nodup
      rw [hids]
      exact ((List.nodup_range _).map
        (fun i j hij => (mkDocId_inj _ _ i j hij).2))
  · have hpw : l.Pairwise (fun a b => basename a.1 ≠ basename b.1) :=
      List.pairwise_map.1 hnd
    refine hpw.imp ?_
    intro a b hab v hva hvb
    simp only [] at hva hvb
    rcases hpa : processFile a.1 a.2 with f | ⟨fna, csa⟩
    · rw [hpa] at hva
      simp at hva
    · rw [hpa] at hva
      rcases hpb : processFile b.1 b.2 with f | ⟨fnb, csb⟩
      · rw [hpb] at hvb
        simp at hvb
      · rw [hpb] at hvb
        obtain ⟨-, hidsa, -, -, -⟩ :=
          processFile_inr_struct a.1 a.2 fna csa hpa
        obtain ⟨-, hidsb, -, -, -⟩ :=
          processFile_inr_struct b.1 b.2 fnb csb hpb
        have hva2 : v ∈ csa.map ChunkMeta.doc_id := hva
        have hvb2 : v ∈ csb.map ChunkMeta.doc_id := hvb
        rw [hidsa, List.mem_map] at hva2
        rw [hidsb, List.mem_map] at hvb2
        obtain ⟨i, -, hvi⟩ := hva2
        obtain ⟨j, -, hvj⟩ := hvb2
        exact hab (mkDocId_inj _ _ i j (hvi.trans hvj.symm)).1

/-- The store mutation `ingestRun` reports is either nothing (the call
aborted before the loop) or exactly what the loop stored. -/
theorem ingestRun_snd (fp : List String) (env : IngestEnv) :
    (ingestRun fp env).2 = [] ∨
    (ingestRun fp env).2 = (ingestLoop (fp.zip env.files)).stored := by
  unfold ingestRun
  split
  · exact .inl rfl
  · split
    · exact .inl rfl
    · split
      · exact .inl rfl
      · split
        · exact .inl rfl
        · split
          · exact .inr rfl
          · right
            by_cases h : (ingestLoop (fp.zip env.files)).total_chunks = 0 <;>
              simp [h]

/-- C7 amended: for a batch whose basenames are pairwise distinct, the
`doc_id` values stamped on the chunks stored by one ingestion call are
pairwise unique, each is `{source_file}_chunk_{chunk_index}`, and within
each successfully processed file the chunk indices are exactly
`0, 1, …, n-1` in order (contiguous from 0) with the file's basename as
filename.  (Without the distinct-basename hypothesis uniqueness fails, see
the counterexample.) -/
theorem ingest_doc_ids_unique (file_paths : List String) (env : IngestEnv)
    (hnodup : (file_paths.map basename).Nodup) :
    (((ingestRun file_paths env).2).map ChunkMeta.doc_id).Nodup ∧
    (∀ c ∈ (ingestRun file_paths env).2,
      c.doc_id = mkDocId c.source_file c.chunk_index) ∧
    (∀ x ∈ file_paths.zip env.files, ∀ fn cs,
      processFile x.1 x.2 = .inr (fn, cs) →
      fn = basename x.1 ∧
      cs.map ChunkMeta.doc_id = (List.range cs.length).map (mkDocId fn) ∧
      cs.map ChunkMeta.chunk_index = List.range cs.length ∧
      cs.map ChunkMeta.source_file = List.replicate cs.length fn) := by
  have hzn : ((file_paths.zip env.files).map
      (fun x => basename x.1)).Nodup :=
    (zip_map_basename_sublist file_paths env.files).nodup hnodup
  have hmem : ∀ c ∈ (ingestLoop (file_paths.zip env.files)).stored,
      c.doc_id = mkDocId c.source_file c.chunk_index := by
    intro c hc
    rw [ingestLoop_stored, List.mem_flatMap] at hc
    obtain ⟨x, -, hcx⟩ := hc
    rcases hpf : processFile x.1 x.2 with f | ⟨fn, cs⟩
    · rw [hpf] at hcx
      simp at hcx
    · rw [hpf] at hcx
      obtain ⟨-, -, -, -, hall⟩ := processFile_inr_struct x.1 x.2 fn cs hpf
      exact hall c hcx
  refine ⟨?_, ?_, ?_⟩
  · rcases ingestRun_snd file_paths env with h | h <;> rw [h]
    · exact List.nodup_nil
    · exact ingestLoop_doc_ids_nodup _ hzn
  · rcases ingestRun_snd file_paths env with h | h <;> rw [h]
    · intro c hc; cases hc
    · exact hmem
  · intro x hxmem fn cs hpf
    obtain ⟨hfn, hids, hidx, hsrc, -⟩ :=
      processFile_inr_struct x.1 x.2 fn cs hpf
    subst hfn
    exact ⟨rfl, hids, hidx, hsrc⟩

/-- C7 witness: a two-file batch with distinct basenames, the first file
yielding two chunks, satisfies the uniqueness and stamping properties. -/
theorem ingest_doc_ids_unique_witness :
    (((ingestRun ["a.pdf", "b.pdf"] cenv7w).2).map ChunkMeta.doc_id).Nodup ∧
    (∀ c ∈ (ingestRun ["a.pdf", "b.pdf"] cenv7w).2,
      c.doc_id = mkDocId c.source_file c.chunk_index) ∧
    (∀ x ∈ ["a.pdf", "b.pdf"].zip cenv7w.files, ∀ fn cs,
      processFile x.1 x.2 = .inr (fn, cs) →
      fn = basename x.1 ∧
      cs.map ChunkMeta.doc_id = (List.range cs.length).map (mkDocId fn) ∧
      cs.map ChunkMeta.chunk_index = List.range cs.length ∧
      cs.map ChunkMeta.source_file = List.replicate cs.length fn) :=
  ingest_doc_ids_unique ["a.pdf", "b.pdf"] cenv7w (by decide)

/-- C7 counterexample: one call ingesting two paths that share the
basename `doc.pdf` succeeds for both files, yet stamps the same
`doc_id` (`doc.pdf_chunk_0`) on two different stored chunks — the doc_id
values of one call are not pairwise unique as claimed. -/
theorem ingest_duplicate_basename_doc_ids :
    ingest_pdfs ["doc.pdf", "dup/doc.pdf"] cenv7 =
      .ok ⟨2, 2, 0, none, some [("doc.pdf", 1), ("doc.pdf", 1)]⟩ ∧
    ((ingestRun ["doc.pdf", "dup/doc.pdf"] cenv7).2.map ChunkMeta.doc_id) =
      ["doc.pdf_chunk_0", "doc.pdf_chunk_0"] ∧
    ¬((ingestRun ["doc.pdf", "dup/doc.pdf"] cenv7).2.map
        ChunkMeta.doc_id).Nodup := by
  refine ⟨rfl, rfl, ?_⟩
  decide

end AskPdf
